import Mathlib

/-!
# rap: access-log middleware and listener start-up of `main.go`

A shallow embedding of `src/main.go`:

* `responseWriter`, its methods `WriteHeader` and `Write`, and the middleware `Logger`
  (lines 17-57), run against an arbitrary implementation of the `http.ResponseWriter`
  interface and an arbitrary downstream handler;
* the `logger.Printf` call of `Logger`, with the fragment of Go's `fmt` verbs it uses;
* the five statements that start the listeners (lines 99-104), with Go's rule for the
  operands of a `go` statement.

Go's `int` is the 64-bit signed integer: values are `Int`, and the one arithmetic
operation of the file, `rw.size += size`, wraps (`wrapInt`).
-/

namespace Rap

/-! ## Data model -/

/-- The value of a Go `int` expression whose mathematical value is `x` (64-bit, two's
complement). -/
def wrapInt (x : Int) : Int := (x + 2 ^ 63) % 2 ^ 64 - 2 ^ 63

/-- Go `[]byte`. -/
abbrev Bytes := List UInt8

/-- Go `error`: `none` is `nil`, `some msg` an error value. -/
abbrev GoError := Option String

/-- The constant `http.StatusOK`. -/
def StatusOK : Int := 200

/-- The fields of `*http.Request` that `Logger` reads. -/
structure Request where
  RemoteAddr : String
  Method : String
  RequestURI : String
deriving DecidableEq, Repr

/-- An implementation of the interface `http.ResponseWriter` over a state `σ`.
`Header` stands for `w.Header().Set(key, value)`: the handler mutates the map that
`Header()` returns. `Write` returns the new state, the count and the error. The methods
are total: a run in which a method of the underlying writer panics is the run of a
handler that panics at that point (`Script.panic`). -/
structure http.ResponseWriter (σ : Type) where
  Header : σ → String → String → σ
  Write : σ → Bytes → σ × Int × GoError
  WriteHeader : σ → Int → σ

/-- The struct `responseWriter` (lines 17-21): the embedded `http.ResponseWriter`
(its state), `statusCode` and `size`. -/
structure responseWriter (σ : Type) where
  ResponseWriter : σ
  statusCode : Int
  size : Int

/-- A value passed to `Printf`: a `string`, an `int`, or a `time.Duration` (nanoseconds). -/
inductive Arg where
  | str (s : String)
  | int (n : Int)
  | duration (d : Int)
deriving DecidableEq, Repr

/-- What can be observed of one request, in order: the calls the underlying
`http.ResponseWriter` receives (a `Write` with the count and error it returned), and the
calls of `logger.Printf`. -/
inductive Event where
  | header (key value : String)
  | writeHeader (code : Int)
  | write (b : Bytes) (n : Int) (err : GoError)
  | printf (format : String) (args : List Arg)
deriving DecidableEq, Repr

/-- The connection state of the underlying writer together with the events so far. -/
structure World (σ : Type) where
  conn : σ
  events : List Event

/-- A world in which nothing has happened yet. -/
def World.fresh {σ : Type} (conn : σ) : World σ := { conn := conn, events := [] }

/-- The underlying writer `w` that the server hands to the closure of `Logger`: the
implementation `W`, every call on it recorded in the world. -/
def observed {σ : Type} (W : http.ResponseWriter σ) : http.ResponseWriter (World σ) where
  Header := fun w key value =>
    { conn := W.Header w.conn key value, events := w.events ++ [Event.header key value] }
  Write := fun w b =>
    let r := W.Write w.conn b
    ({ conn := r.1, events := w.events ++ [Event.write b r.2.1 r.2.2] }, r.2.1, r.2.2)
  WriteHeader := fun w code =>
    { conn := W.WriteHeader w.conn code, events := w.events ++ [Event.writeHeader code] }

/-! ## Handlers -/

/-- How a call of `ServeHTTP` ends. -/
inductive Outcome where
  | returned
  | panicked (v : String)
deriving DecidableEq, Repr

/-- What one call of `ServeHTTP` does with the writer it is given: it returns, panics,
sets a header, calls `WriteHeader`, or calls `Write` and goes on according to the count
and error that `Write` returned. -/
inductive Script where
  | ret : Script
  | panic (v : String) : Script
  | setHeader (key value : String) (next : Script) : Script
  | writeHeader (code : Int) (next : Script) : Script
  | write (b : Bytes) (next : Int → GoError → Script) : Script

/-- An `http.Handler`: the script that `ServeHTTP(w, r)` follows for the request `r`. -/
abbrev Handler := Request → Script

/-- Run a script against a writer implementation from the state `s`. -/
def Script.run {σ : Type} (W : http.ResponseWriter σ) : Script → σ → σ × Outcome
  | .ret, s => (s, .returned)
  | .panic v, s => (s, .panicked v)
  | .setHeader key value next, s => next.run W (W.Header s key value)
  | .writeHeader code next, s => next.run W (W.WriteHeader s code)
  | .write b next, s =>
    let r := W.Write s b
    (next r.2.1 r.2.2).run W r.1

/-- The call `next.ServeHTTP(w, r)`. -/
def Handler.ServeHTTP {σ : Type} (next : Handler) (W : http.ResponseWriter σ) (w : σ)
    (r : Request) : σ × Outcome :=
  (next r).run W w

/-! ## `responseWriter` (lines 23-32) -/

/-- The method `(rw *responseWriter) WriteHeader(code int)`. -/
def responseWriter.WriteHeader {σ : Type} (W : http.ResponseWriter σ) (rw : responseWriter σ)
    (code : Int) : responseWriter σ :=
  let rw1 := { rw with statusCode := code }
  { rw1 with ResponseWriter := W.WriteHeader rw1.ResponseWriter code }

/-- The method `(rw *responseWriter) Write(b []byte) (int, error)`. -/
def responseWriter.Write {σ : Type} (W : http.ResponseWriter σ) (rw : responseWriter σ)
    (b : Bytes) : responseWriter σ × Int × GoError :=
  let r := W.Write rw.ResponseWriter b
  let size := r.2.1
  let err := r.2.2
  let rw1 := { rw with ResponseWriter := r.1 }
  ({ rw1 with size := wrapInt (rw1.size + size) }, size, err)

/-- The method `Header`, promoted from the embedded `http.ResponseWriter`. -/
def responseWriter.Header {σ : Type} (W : http.ResponseWriter σ) (rw : responseWriter σ)
    (key value : String) : responseWriter σ :=
  { rw with ResponseWriter := W.Header rw.ResponseWriter key value }

/-- The type `*responseWriter` as an implementation of `http.ResponseWriter`. -/
def wrapper {σ : Type} (W : http.ResponseWriter σ) : http.ResponseWriter (responseWriter σ) where
  Header := responseWriter.Header W
  Write := responseWriter.Write W
  WriteHeader := responseWriter.WriteHeader W

/-! ## `Printf` -/

/-- Decimal rendering of an integer, as the verb `%d` prints an `int`. -/
def decimal : Int → String
  | Int.ofNat m => Nat.repr m
  | Int.negSucc m => "-" ++ Nat.repr (m + 1)

/-- One verb applied to one operand. `durString` is `time.Duration.String`, which `%s`
and `%v` call on a `time.Duration`. Combinations outside `%s`, `%d`, `%v` on these three
operand types are not modelled (`none`). -/
def fmtVerb (durString : Int → String) (verb : Char) (a : Arg) : Option String :=
  match a with
  | .str s => if verb = 's' ∨ verb = 'v' then some s else none
  | .int n => if verb = 'd' ∨ verb = 'v' then some (decimal n) else none
  | .duration d =>
    if verb = 's' ∨ verb = 'v' then some (durString d)
    else if verb = 'd' then some (decimal d) else none

/-- The scan of `fmt.Sprintf` over the format: `pending` says that the previous character
was a `%` that starts a verb. Plain characters are copied, `%%` prints a percent sign, a
verb consumes the next operand. Formats with flags or widths, a missing operand, an
operand left over or a trailing `%` are not modelled (`none`). -/
def sprintfScan (durString : Int → String) : Bool → List Char → List Arg → Option String
  | false, [], [] => some ""
  | false, [], _ :: _ => none
  | true, [], _ => none
  | false, c :: rest, args =>
    if c = '%' then sprintfScan durString true rest args
    else (sprintfScan durString false rest args).map (fun t => String.singleton c ++ t)
  | true, c :: rest, args =>
    if c = '%' then (sprintfScan durString false rest args).map (fun t => "%" ++ t)
    else
      match args with
      | [] => none
      | a :: args1 =>
        match fmtVerb durString c a, sprintfScan durString false rest args1 with
        | some s, some t => some (s ++ t)
        | _, _ => none

/-- The text `fmt.Sprintf(format, args...)` for the modelled fragment. -/
def Sprintf (durString : Int → String) (format : String) (args : List Arg) : Option String :=
  sprintfScan durString false format.toList args

/-- The call `logger.Printf(format, args...)`: one more record handed to the logger,
which writes the text `Sprintf(format, args...)` as one line to syslog. -/
def Printf {σ : Type} (w : World σ) (format : String) (args : List Arg) : World σ :=
  { w with events := w.events ++ [Event.printf format args] }

/-! ## `Logger` (lines 34-57) -/

/-- The format string of the `logger.Printf` call (line 48). -/
def accessFormat : String := "%s [%s] %s %d %d %v"

/-- The composite literal `&responseWriter{ResponseWriter: w, statusCode: http.StatusOK}`
(lines 38-41); `size` is left at its zero value. -/
def newWrapped {σ : Type} (w : σ) : responseWriter σ :=
  { ResponseWriter := w, statusCode := StatusOK, size := 0 }

/-- The handler that `Logger(next)` returns, applied to the writer `w` and the request
`r`. `elapsed` is the value `time.Since(start)` takes. When `next.ServeHTTP` panics the
panic leaves the closure: the statements after the call are not executed. -/
def Logger {σ : Type} (W : http.ResponseWriter σ) (elapsed : Int) (next : Handler)
    (w : World σ) (r : Request) : World σ × Outcome :=
  let wrapped := newWrapped w
  match next.ServeHTTP (wrapper (observed W)) wrapped r with
  | (wrapped1, .panicked v) => (wrapped1.ResponseWriter, .panicked v)
  | (wrapped1, .returned) =>
    let duration := elapsed
    (Printf wrapped1.ResponseWriter accessFormat
      [.str r.RemoteAddr, .str r.Method, .str r.RequestURI,
       .int wrapped1.statusCode, .int wrapped1.size, .duration duration],
     .returned)

/-! ## The calls a handler makes -/

/-- A method call that a handler makes on the writer it is given; a `Write` with the
count and error returned to the handler. -/
inductive Call where
  | header (key value : String)
  | writeHeader (code : Int)
  | write (b : Bytes) (n : Int) (err : GoError)
deriving DecidableEq, Repr

/-- The same call as an event on the underlying writer. -/
def Call.event : Call → Event
  | .header key value => .header key value
  | .writeHeader code => .writeHeader code
  | .write b n err => .write b n err

/-- Whether the call is a call of `WriteHeader`. -/
def Call.isWriteHeader : Call → Bool
  | .writeHeader _ => true
  | _ => false

/-- The calls that a script makes, in order, when run against `W` from the state `s`. -/
def Script.calls {σ : Type} (W : http.ResponseWriter σ) : Script → σ → List Call
  | .ret, _ => []
  | .panic _, _ => []
  | .setHeader key value next, s => .header key value :: next.calls W (W.Header s key value)
  | .writeHeader code next, s => .writeHeader code :: next.calls W (W.WriteHeader s code)
  | .write b next, s =>
    let r := W.Write s b
    .write b r.2.1 r.2.2 :: (next r.2.1 r.2.2).calls W r.1

/-- The calls that `next` makes on the wrapped writer while `Logger(next)` serves `r`. -/
def handlerCalls {σ : Type} (W : http.ResponseWriter σ) (next : Handler) (w : World σ)
    (r : Request) : List Call :=
  (next r).calls (wrapper (observed W)) (newWrapped w)

/-! ## Reading the events -/

/-- The operands of every `Printf` call among the events: the access-log records. -/
def logRecords : List Event → List (List Arg)
  | [] => []
  | .printf _ args :: rest => args :: logRecords rest
  | _ :: rest => logRecords rest

/-- The text of every `Printf` call among the events. -/
def logLines (durString : Int → String) : List Event → List (Option String)
  | [] => []
  | .printf format args :: rest => Sprintf durString format args :: logLines durString rest
  | _ :: rest => logLines durString rest

/-- The status code of an access-log record: its fourth operand. -/
def recordStatus (args : List Arg) : Option Int :=
  match args with
  | [_, _, _, .int status, _, _] => some status
  | _ => none

/-- The byte count of an access-log record: its fifth operand. -/
def recordSize (args : List Arg) : Option Int :=
  match args with
  | [_, _, _, _, .int size, _] => some size
  | _ => none

/-- Sum of the counts returned by the `Write` calls on the underlying writer. -/
def writtenBytes : List Event → Int
  | [] => 0
  | .write _ n _ :: rest => n + writtenBytes rest
  | _ :: rest => writtenBytes rest

/-- Sum of the lengths of the chunks passed to `Write` on the underlying writer. -/
def chunkBytes : List Event → Int
  | [] => 0
  | .write b _ _ :: rest => (b.length : Int) + chunkBytes rest
  | _ :: rest => chunkBytes rest

/-- Every `Write` on the underlying writer succeeded in full: it returned the length of
its chunk and no error. -/
def allWritesFull : List Event → Bool
  | [] => true
  | .write b n err :: rest => decide (n = (b.length : Int)) && err.isNone && allWritesFull rest
  | _ :: rest => allWritesFull rest

/-- The code of the last `WriteHeader` call among the events, `cur` when there is none. -/
def lastWriteHeaderFrom (cur : Int) : List Event → Int
  | [] => cur
  | .writeHeader code :: rest => lastWriteHeaderFrom code rest
  | _ :: rest => lastWriteHeaderFrom cur rest

/-- The code of the last `WriteHeader` call among the events, `http.StatusOK` when there
is none. -/
def lastWriteHeader (events : List Event) : Int := lastWriteHeaderFrom StatusOK events

/-- Whether the event is a call of `WriteHeader`. -/
def Event.isWriteHeader : Event → Bool
  | .writeHeader _ => true
  | _ => false

/-- Whether the event is a call of `logger.Printf`. -/
def Event.isPrintf : Event → Bool
  | .printf _ _ => true
  | _ => false

/-- Whether the event is a `WriteHeader` or `Write` call on the underlying writer. -/
def Event.isResponseWrite : Event → Bool
  | .writeHeader _ => true
  | .write _ _ _ => true
  | _ => false

/-- No `WriteHeader` or `Write` on the underlying writer follows a `Printf` call. -/
def noWriteAfterLog : List Event → Bool
  | [] => true
  | e :: rest =>
    (if e.isPrintf then !(rest.any Event.isResponseWrite) else true) && noWriteAfterLog rest

/-- Modelled from the spec: the status code that the underlying writer of `net/http`
(not part of the repository) sends to the client, as the claim on the logged status
describes it: the code of the first `WriteHeader` call, an implicit 200 when a `Write`
comes first, later `WriteHeader` calls ignored. A response on which the handler calls
neither is sent with 200. -/
def sentStatus : List Event → Int
  | [] => StatusOK
  | .writeHeader code :: _ => code
  | .write _ _ _ :: _ => StatusOK
  | _ :: rest => sentStatus rest

/-- A writer that accepts every chunk in full and keeps nothing. -/
def discard : http.ResponseWriter Unit where
  Header := fun _ _ _ => ()
  Write := fun _ b => ((), (b.length : Int), none)
  WriteHeader := fun _ _ => ()

/-- A writer whose connection breaks after `room` bytes: a `Write` of a longer chunk
writes what still fits and returns an error. -/
def limited : http.ResponseWriter Nat where
  Header := fun room _ _ => room
  Write := fun room b =>
    if b.length ≤ room then (room - b.length, (b.length : Int), none)
    else (0, (room : Int), some "broken pipe")
  WriteHeader := fun room _ => room

/-- A request used in the examples. -/
def sampleRequest : Request :=
  { RemoteAddr := "192.0.2.7:51234", Method := "GET", RequestURI := "/foo?x=1" }

/-- The events of one request served by `Logger(next)` on a connection in state `conn`. -/
def requestEvents {σ : Type} (W : http.ResponseWriter σ) (elapsed : Int) (next : Handler)
    (conn : σ) (r : Request) : List Event :=
  (Logger W elapsed next (World.fresh conn) r).1.events

/-- How `Logger(next)` ends for one request on a connection in state `conn`. -/
def requestOutcome {σ : Type} (W : http.ResponseWriter σ) (elapsed : Int) (next : Handler)
    (conn : σ) (r : Request) : Outcome :=
  (Logger W elapsed next (World.fresh conn) r).2

/-- The wrapper `wrapped` when `next.ServeHTTP(wrapped, r)` has ended. -/
def servedWrapper {σ : Type} (W : http.ResponseWriter σ) (next : Handler) (conn : σ)
    (r : Request) : responseWriter (World σ) :=
  (next.ServeHTTP (wrapper (observed W)) (newWrapped (World.fresh conn)) r).1

/-- The access-log line as the specification writes it:
`<remote-addr> [<method>] <uri> <status> <bytes> <duration>`. -/
def accessLine (durString : Int → String) (remoteAddr method uri : String)
    (status bytes elapsed : Int) : String :=
  remoteAddr ++ " [" ++ method ++ "] " ++ uri ++ " " ++ decimal status ++ " " ++
    decimal bytes ++ " " ++ durString elapsed

/-- The access-log record that `Logger` hands to `Printf` after the calls `cs`. -/
def accessRecord (elapsed : Int) (r : Request) (cs : List Call) : List Arg :=
  [.str r.RemoteAddr, .str r.Method, .str r.RequestURI,
   .int (lastWriteHeader (cs.map Call.event)),
   .int (wrapInt (writtenBytes (cs.map Call.event))), .duration elapsed]

/-- A handler that calls `WriteHeader` twice. -/
def twiceWriteHeader : Handler :=
  fun _ => .writeHeader 404 (.writeHeader 500 .ret)

/-- A handler that writes a chunk and calls `WriteHeader` afterwards. -/
def lateWriteHeader : Handler :=
  fun _ => .write [104, 105] (fun _ _ => .writeHeader 500 .ret)

/-- A handler that writes five bytes and, when that fails, two more; it never calls
`WriteHeader`. -/
def retryWrite : Handler :=
  fun _ => .write [1, 2, 3, 4, 5] (fun _ err =>
    if err.isSome then .write [9, 9] (fun _ _ => .ret) else .ret)

/-- A handler that sends a status and a chunk and then panics, as the reverse proxy does
when copying the upstream body fails. -/
def abortingHandler : Handler :=
  fun _ => .writeHeader 200 (.write [111, 107] (fun _ _ => .panic "net/http: abort Handler"))

/-- A handler that answers 201 with one header and a two-byte body. -/
def createdHandler : Handler :=
  fun _ => .setHeader "Content-Type" "text/plain" (.writeHeader 201 (.write [111, 107]
    (fun _ _ => .ret)))

/-! ## Starting the listeners (lines 99-104) -/

/-- The four listeners: the two plaintext challenge listeners (`-http`, `-http6`) and
the two TLS listeners (`-https`, `-https6`). -/
inductive Listener where
  | http4
  | http6
  | https4
  | https6
deriving DecidableEq, Repr

/-- An operand of a call in `main`: a value whose evaluation does not block (a flag, the
challenge handler, a string), or the call `server.ListenAndServeTLS("", "")` of the TLS
listener `l` written in operand position. -/
inductive Operand where
  | value
  | listenAndServeTLS (l : Listener)
deriving DecidableEq, Repr

/-- The functions that `main` calls in statement position. -/
inductive Callee where
  | listenAndServe (l : Listener)
  | logPrintf
  | logFatal
deriving DecidableEq, Repr

/-- A statement of `main`: a `go` statement or an expression statement, each a call of a
function on operands. -/
inductive Stmt where
  | goStmt (f : Callee) (operands : List Operand)
  | exprStmt (f : Callee) (operands : List Operand)
deriving DecidableEq, Repr

/-- Lines 99-104 of `main`. -/
def mainStmts : List Stmt :=
  [ .goStmt (.listenAndServe .http4) [.value, .value],
    .goStmt (.listenAndServe .http6) [.value, .value],
    .exprStmt .logPrintf [.value, .value, .value],
    .goStmt .logFatal [.listenAndServeTLS .https4],
    .exprStmt .logFatal [.listenAndServeTLS .https6] ]

/-- What a goroutine does next: evaluate an operand, call a function, or start a new
goroutine that calls a function. -/
inductive Instr where
  | eval (o : Operand)
  | call (f : Callee)
  | spawn (f : Callee)
deriving DecidableEq, Repr

/-- The steps of one statement. In a `go` statement the function value and the operands
are evaluated in the calling goroutine, and only the call itself runs in the new
goroutine; an expression statement evaluates the operands and makes the call. -/
def Stmt.instrs : Stmt → List Instr
  | .goStmt f operands => operands.map Instr.eval ++ [Instr.spawn f]
  | .exprStmt f operands => operands.map Instr.eval ++ [Instr.call f]

/-- The steps of a list of statements. -/
def program : List Stmt → List Instr
  | [] => []
  | s :: rest => s.instrs ++ program rest

/-- A goroutine: running with steps left, or blocked inside the `ListenAndServe` or
`ListenAndServeTLS` call of a listener that is serving. -/
inductive Goroutine where
  | running (todo : List Instr)
  | serving (l : Listener)
deriving DecidableEq, Repr

/-- The process: the main goroutine, the goroutines started so far, the listeners whose
serve call has been made, in order, and whether the process has exited. -/
structure Process where
  main : Goroutine
  others : List Goroutine
  started : List Listener
  exited : Bool
deriving DecidableEq, Repr

/-- The effect of one step of a goroutine. -/
structure StepResult where
  next : Goroutine
  started : Option Listener
  spawned : Option Callee
  exit : Bool
deriving DecidableEq, Repr

/-- A serve call on the listener `l`: when the address can be bound the listener serves
and the call does not return; otherwise the call returns its error. -/
def serveCall (bindable : Listener → Bool) (l : Listener) (rest : List Instr) : StepResult :=
  { next := if bindable l then .serving l else .running rest,
    started := some l, spawned := none, exit := false }

/-- One step of a goroutine. `log.Fatal` exits the process; so does the return of the
main goroutine. -/
def Goroutine.step (bindable : Listener → Bool) (isMain : Bool) : Goroutine → StepResult
  | .serving l => { next := .serving l, started := none, spawned := none, exit := false }
  | .running [] => { next := .running [], started := none, spawned := none, exit := isMain }
  | .running (.eval .value :: rest) =>
    { next := .running rest, started := none, spawned := none, exit := false }
  | .running (.eval (.listenAndServeTLS l) :: rest) => serveCall bindable l rest
  | .running (.call (.listenAndServe l) :: rest) => serveCall bindable l rest
  | .running (.call .logPrintf :: rest) =>
    { next := .running rest, started := none, spawned := none, exit := false }
  | .running (.call .logFatal :: rest) =>
    { next := .running rest, started := none, spawned := none, exit := true }
  | .running (.spawn f :: rest) =>
    { next := .running rest, started := none, spawned := some f, exit := false }

/-- The process after the effect `r` of a step, the goroutines already updated. -/
def Process.record (p : Process) (r : StepResult) : Process :=
  { p with
    others := p.others ++ (r.spawned.map (fun f => Goroutine.running [Instr.call f])).toList,
    started := p.started ++ r.started.toList,
    exited := r.exit }

/-- One step of the process: the scheduler picks the main goroutine (`none`) or the
`i`-th started goroutine (`some i`). Nothing runs once the process has exited. -/
def Process.step (bindable : Listener → Bool) (p : Process) (who : Option Nat) : Process :=
  if p.exited then p
  else
    match who with
    | none =>
      let r := p.main.step bindable true
      Process.record { p with main := r.next } r
    | some i =>
      match p.others.get? i with
      | none => p
      | some g =>
        let r := g.step bindable false
        Process.record { p with others := p.others.set i r.next } r

/-- The process after the scheduler's choices `sched`. -/
def Process.run (bindable : Listener → Bool) (sched : List (Option Nat)) (p : Process) :
    Process :=
  sched.foldl (Process.step bindable) p

/-- The process when `main` reaches line 99. -/
def startup : Process :=
  { main := .running (program mainStmts), others := [], started := [], exited := false }

/-- All four addresses can be bound. -/
def allBindable : Listener → Bool := fun _ => true

/-- A schedule that runs `main` as far as it goes and then each started goroutine. -/
def eagerSchedule : List (Option Nat) :=
  List.replicate 14 none ++ [some 0, some 1, some 2]

/-- The function on listeners with the given four values. -/
def bindableOf (b4 b6 s4 s6 : Bool) : Listener → Bool
  | .http4 => b4
  | .http6 => b6
  | .https4 => s4
  | .https6 => s6

/-- The states of the main goroutine up to the serve call of the IPv4 TLS listener. -/
def mainStates : List Goroutine :=
  Goroutine.serving .https4 ::
    (List.range 11).map (fun k => Goroutine.running ((program mainStmts).drop k))

/-- The states of the goroutines started by the two `go http.ListenAndServe` statements. -/
def challengeStates : List Goroutine :=
  [ .running [.call (.listenAndServe .http4)], .running [.call (.listenAndServe .http6)],
    .running [], .serving .http4, .serving .http6 ]

/-- While the IPv4 TLS listener serves, the main goroutine has not passed its serve call,
the other goroutines are the two challenge listeners, and the serve call of the IPv6 TLS
listener has not been made. -/
def BeforeHttps6 (p : Process) : Prop :=
  p.main ∈ mainStates ∧ (∀ g ∈ p.others, g ∈ challengeStates) ∧
    Listener.https6 ∉ p.started

/-! ## Arithmetic of `int` -/

theorem wrapInt_of_fits (x : Int) (hlo : -(2 ^ 63) ≤ x) (hhi : x < 2 ^ 63) : wrapInt x = x := by
  unfold wrapInt
  omega

theorem wrapInt_add_wrapInt (a n : Int) : wrapInt (wrapInt a + n) = wrapInt (a + n) := by
  unfold wrapInt
  omega

theorem wrapInt_zero : wrapInt 0 = 0 := by
  unfold wrapInt
  omega

/-! ## Running a script -/

/-- Running a script through the wrapper drives the underlying writer exactly as running
it on the underlying writer directly, and ends the same way. -/
theorem Script.run_wrapper {τ : Type} (W : http.ResponseWriter τ) :
    ∀ (sc : Script) (rw : responseWriter τ),
      (sc.run (wrapper W) rw).1.ResponseWriter = (sc.run W rw.ResponseWriter).1 ∧
      (sc.run (wrapper W) rw).2 = (sc.run W rw.ResponseWriter).2 := by
  intro sc
  induction sc with
  | ret => intro rw; simp [Script.run]
  | panic v => intro rw; simp [Script.run]
  | setHeader key value next ih =>
    intro rw
    simpa [Script.run, wrapper, responseWriter.Header] using
      ih (responseWriter.Header W rw key value)
  | writeHeader code next ih =>
    intro rw
    simpa [Script.run, wrapper, responseWriter.WriteHeader] using
      ih (responseWriter.WriteHeader W rw code)
  | write b next ih =>
    intro rw
    simpa [Script.run, wrapper, responseWriter.Write] using
      ih (W.Write rw.ResponseWriter b).2.1 (W.Write rw.ResponseWriter b).2.2
        (responseWriter.Write W rw b).1

/-! ## The wrapper during a run -/

/-- The events on the underlying writer after a run through the wrapper: those before,
then the calls of the script, in order and with the results the script received. -/
theorem Script.run_wrapper_events {σ : Type} (W : http.ResponseWriter σ) :
    ∀ (sc : Script) (rw : responseWriter (World σ)),
      (sc.run (wrapper (observed W)) rw).1.ResponseWriter.events =
        rw.ResponseWriter.events ++ (sc.calls (wrapper (observed W)) rw).map Call.event := by
  intro sc
  induction sc with
  | ret => intro rw; simp [Script.run, Script.calls]
  | panic v => intro rw; simp [Script.run, Script.calls]
  | setHeader key value next ih =>
    intro rw
    rw [Script.run, Script.calls, ih]
    simp [wrapper, responseWriter.Header, observed, Call.event]
  | writeHeader code next ih =>
    intro rw
    rw [Script.run, Script.calls, ih]
    simp [wrapper, responseWriter.WriteHeader, observed, Call.event]
  | write b next ih =>
    intro rw
    rw [Script.run, Script.calls]
    simp only [ih]
    simp [wrapper, responseWriter.Write, observed, Call.event]

/-- The field `size` after a run through the wrapper: the counts returned to the script
added up in `int`. -/
theorem Script.run_wrapper_size {σ : Type} (W : http.ResponseWriter σ) :
    ∀ (sc : Script) (rw : responseWriter (World σ)) (base : Int), rw.size = wrapInt base →
      (sc.run (wrapper (observed W)) rw).1.size =
        wrapInt (base + writtenBytes ((sc.calls (wrapper (observed W)) rw).map Call.event)) := by
  intro sc
  induction sc with
  | ret => intro rw base h; simpa [Script.run, Script.calls, writtenBytes] using h
  | panic v => intro rw base h; simpa [Script.run, Script.calls, writtenBytes] using h
  | setHeader key value next ih =>
    intro rw base h
    rw [Script.run, Script.calls, ih _ base (by simpa [wrapper, responseWriter.Header] using h)]
    simp [Call.event, writtenBytes]
  | writeHeader code next ih =>
    intro rw base h
    rw [Script.run, Script.calls,
      ih _ base (by simpa [wrapper, responseWriter.WriteHeader] using h)]
    simp [Call.event, writtenBytes]
  | write b next ih =>
    intro rw base h
    rw [Script.run, Script.calls]
    rw [ih _ _ _ (base + ((wrapper (observed W)).Write rw b).2.1)
      (by simp [wrapper, responseWriter.Write, h, wrapInt_add_wrapInt])]
    simp [Call.event, writtenBytes, add_assoc]

/-- The field `statusCode` after a run through the wrapper: the code of the last
`WriteHeader` call of the script, the initial value when there is none. -/
theorem Script.run_wrapper_status {σ : Type} (W : http.ResponseWriter σ) :
    ∀ (sc : Script) (rw : responseWriter (World σ)),
      (sc.run (wrapper (observed W)) rw).1.statusCode =
        lastWriteHeaderFrom rw.statusCode
          ((sc.calls (wrapper (observed W)) rw).map Call.event) := by
  intro sc
  induction sc with
  | ret => intro rw; simp [Script.run, Script.calls, lastWriteHeaderFrom]
  | panic v => intro rw; simp [Script.run, Script.calls, lastWriteHeaderFrom]
  | setHeader key value next ih =>
    intro rw
    rw [Script.run, Script.calls, ih]
    simp [Call.event, lastWriteHeaderFrom, wrapper, responseWriter.Header]
  | writeHeader code next ih =>
    intro rw
    rw [Script.run, Script.calls, ih]
    simp [Call.event, lastWriteHeaderFrom, wrapper, responseWriter.WriteHeader]
  | write b next ih =>
    intro rw
    rw [Script.run, Script.calls]
    simp only [ih]
    simp [Call.event, lastWriteHeaderFrom, wrapper, responseWriter.Write]

/-! ## Event lists -/

theorem logRecords_append (a b : List Event) :
    logRecords (a ++ b) = logRecords a ++ logRecords b := by
  induction a with
  | nil => rfl
  | cons e rest ih => cases e <;> simp [logRecords, ih]

theorem logRecords_calls (cs : List Call) : logRecords (cs.map Call.event) = [] := by
  induction cs with
  | nil => rfl
  | cons c rest ih => cases c <;> simpa [logRecords, Call.event] using ih

theorem logLines_append (durString : Int → String) (a b : List Event) :
    logLines durString (a ++ b) = logLines durString a ++ logLines durString b := by
  induction a with
  | nil => rfl
  | cons e rest ih => cases e <;> simp [logLines, ih]

theorem logLines_calls (durString : Int → String) (cs : List Call) :
    logLines durString (cs.map Call.event) = [] := by
  induction cs with
  | nil => rfl
  | cons c rest ih => cases c <;> simpa [logLines, Call.event] using ih

theorem writtenBytes_append (a b : List Event) :
    writtenBytes (a ++ b) = writtenBytes a + writtenBytes b := by
  induction a with
  | nil => simp [writtenBytes]
  | cons e rest ih => cases e <;> simp [writtenBytes, ih, add_assoc]

theorem lastWriteHeaderFrom_of_none (cur : Int) (events : List Event)
    (h : ∀ e ∈ events, e.isWriteHeader = false) : lastWriteHeaderFrom cur events = cur := by
  induction events with
  | nil => rfl
  | cons e rest ih =>
    have hrest : ∀ x ∈ rest, x.isWriteHeader = false :=
      fun x hx => h x (List.mem_cons_of_mem _ hx)
    have he := h e (List.mem_cons_self _ _)
    cases e <;> simp_all [lastWriteHeaderFrom, Event.isWriteHeader]

theorem writtenBytes_eq_chunkBytes (events : List Event) (h : allWritesFull events = true) :
    writtenBytes events = chunkBytes events := by
  induction events with
  | nil => rfl
  | cons e rest ih => cases e <;> simp_all [writtenBytes, chunkBytes, allWritesFull]

theorem noWriteAfterLog_calls (cs : List Call) (tail : List Event)
    (htail : noWriteAfterLog tail = true) :
    noWriteAfterLog (cs.map Call.event ++ tail) = true := by
  induction cs with
  | nil => simpa using htail
  | cons c rest ih => cases c <;> simpa [noWriteAfterLog, Call.event, Event.isPrintf] using ih

/-! ## The events of one request -/

/-- The result of `Logger(next)` when `next` returns: the `Printf` call is made. -/
theorem Logger_of_returned {σ : Type} (W : http.ResponseWriter σ) (elapsed : Int)
    (next : Handler) (w : World σ) (r : Request) (rw1 : responseWriter (World σ))
    (h : (next r).run (wrapper (observed W)) (newWrapped w) = (rw1, Outcome.returned)) :
    Logger W elapsed next w r =
      (Printf rw1.ResponseWriter accessFormat
        [.str r.RemoteAddr, .str r.Method, .str r.RequestURI,
         .int rw1.statusCode, .int rw1.size, .duration elapsed], Outcome.returned) := by
  simp [Logger, Handler.ServeHTTP, h]

/-- The result of `Logger(next)` when `next` panics: no `Printf` call is made. -/
theorem Logger_of_panicked {σ : Type} (W : http.ResponseWriter σ) (elapsed : Int)
    (next : Handler) (w : World σ) (r : Request) (rw1 : responseWriter (World σ)) (v : String)
    (h : (next r).run (wrapper (observed W)) (newWrapped w) = (rw1, Outcome.panicked v)) :
    Logger W elapsed next w r = (rw1.ResponseWriter, Outcome.panicked v) := by
  simp [Logger, Handler.ServeHTTP, h]

/-- The outcome of `Logger(next)` is the outcome of `next`. -/
theorem Logger_outcome {σ : Type} (W : http.ResponseWriter σ) (elapsed : Int)
    (next : Handler) (w : World σ) (r : Request) :
    (Logger W elapsed next w r).2 =
      ((next r).run (wrapper (observed W)) (newWrapped w)).2 := by
  rcases hres : (next r).run (wrapper (observed W)) (newWrapped w) with ⟨rw1, out⟩
  cases out with
  | returned => rw [Logger_of_returned W elapsed next w r rw1 hres]
  | panicked v => rw [Logger_of_panicked W elapsed next w r rw1 v hres]

/-- The events of one request, from a world with no events: the calls of the downstream
handler, then, when it returned, the one `Printf` call. -/
theorem Logger_events {σ : Type} (W : http.ResponseWriter σ) (elapsed : Int)
    (next : Handler) (conn : σ) (r : Request) :
    (Logger W elapsed next (World.fresh conn) r).1.events =
      (handlerCalls W next (World.fresh conn) r).map Call.event ++
        (match (Logger W elapsed next (World.fresh conn) r).2 with
          | .returned =>
            [Event.printf accessFormat
              (accessRecord elapsed r (handlerCalls W next (World.fresh conn) r))]
          | .panicked _ => []) := by
  have hev := Script.run_wrapper_events W (next r) (newWrapped (World.fresh conn))
  have hsz := Script.run_wrapper_size W (next r) (newWrapped (World.fresh conn)) 0
    (by simp [newWrapped, wrapInt_zero])
  have hst := Script.run_wrapper_status W (next r) (newWrapped (World.fresh conn))
  rcases hres : (next r).run (wrapper (observed W)) (newWrapped (World.fresh conn))
    with ⟨rw1, out⟩
  rw [hres] at hev hsz hst
  simp only [newWrapped, World.fresh, List.nil_append, zero_add] at hev hsz hst
  cases out with
  | returned =>
    rw [Logger_of_returned W elapsed next _ r rw1 hres]
    simp [Printf, handlerCalls, accessRecord, lastWriteHeader, hev, hsz, hst, newWrapped,
      World.fresh]
  | panicked v =>
    rw [Logger_of_panicked W elapsed next _ r rw1 v hres]
    simp [handlerCalls, hev, newWrapped, World.fresh]

/-- The calls a script makes on the wrapper are the calls it makes on the underlying
writer when run without the wrapper, with the same results. -/
theorem Script.calls_wrapper {τ : Type} (W : http.ResponseWriter τ) :
    ∀ (sc : Script) (rw : responseWriter τ),
      sc.calls (wrapper W) rw = sc.calls W rw.ResponseWriter := by
  intro sc
  induction sc with
  | ret => intro rw; simp [Script.calls]
  | panic v => intro rw; simp [Script.calls]
  | setHeader key value next ih =>
    intro rw
    simpa [Script.calls, wrapper, responseWriter.Header] using
      ih (responseWriter.Header W rw key value)
  | writeHeader code next ih =>
    intro rw
    simpa [Script.calls, wrapper, responseWriter.WriteHeader] using
      ih (responseWriter.WriteHeader W rw code)
  | write b next ih =>
    intro rw
    simpa [Script.calls, wrapper, responseWriter.Write] using
      ih (W.Write rw.ResponseWriter b).2.1 (W.Write rw.ResponseWriter b).2.2
        (responseWriter.Write W rw b).1

/-- The text of the `Printf` call of `Logger`. -/
theorem Sprintf_accessFormat (durString : Int → String) (remoteAddr method uri : String)
    (status bytes elapsed : Int) :
    Sprintf durString accessFormat
      [.str remoteAddr, .str method, .str uri, .int status, .int bytes, .duration elapsed] =
      some (accessLine durString remoteAddr method uri status bytes elapsed) := by
  show sprintfScan durString false
    ['%', 's', ' ', '[', '%', 's', ']', ' ', '%', 's', ' ', '%', 'd', ' ', '%', 'd', ' ',
      '%', 'v'] _ = _
  simp [sprintfScan, fmtVerb, accessLine]
  apply String.ext
  simp [String.data_append, String.singleton]

/-! ## The access-log record -/

/-- The status code that `Logger` logs when the downstream handler returns: the code of
the last `WriteHeader` call of the handler, 200 when there is none. -/
theorem Logger_status_last {σ : Type} (W : http.ResponseWriter σ) (elapsed : Int)
    (next : Handler) (conn : σ) (r : Request)
    (hret : requestOutcome W elapsed next conn r = Outcome.returned) :
    (logRecords (requestEvents W elapsed next conn r)).map recordStatus =
      [some (lastWriteHeader ((handlerCalls W next (World.fresh conn) r).map Call.event))] := by
  have hev := Logger_events W elapsed next conn r
  unfold requestOutcome at hret
  rw [hret] at hev
  unfold requestEvents
  rw [hev]
  simp [logRecords_append, logRecords_calls, logRecords, accessRecord, recordStatus]

/-- C1, evaluated on the code: a handler that calls `WriteHeader(404)` and then
`WriteHeader(500)` gets the status 500 in its access-log record while the underlying
writer has sent 404; a handler that writes two bytes and then calls `WriteHeader(500)`
gets 500 in its record while 200 has been sent. -/
theorem Logger_status_differs_from_sent :
    ((logRecords (requestEvents discard 1500 twiceWriteHeader () sampleRequest)).map
        recordStatus = [some 500] ∧
      sentStatus (requestEvents discard 1500 twiceWriteHeader () sampleRequest) = 404) ∧
    ((logRecords (requestEvents discard 1500 lateWriteHeader () sampleRequest)).map
        recordStatus = [some 500] ∧
      sentStatus (requestEvents discard 1500 lateWriteHeader () sampleRequest) = 200) := by
  decide

/-- C2: when the downstream handler returns, the byte count of the access-log record is
the sum of the counts returned by the `Write` calls on the underlying writer, started at
0 and added up in Go's `int`; it is that sum itself whenever the sum is an `int` value,
and the sum is the total length of the chunks when every `Write` succeeded in full. -/
theorem Logger_size_eq_written {σ : Type} (W : http.ResponseWriter σ) (elapsed : Int)
    (next : Handler) (conn : σ) (r : Request)
    (hret : requestOutcome W elapsed next conn r = Outcome.returned) :
    (logRecords (requestEvents W elapsed next conn r)).map recordSize =
        [some (wrapInt (writtenBytes (requestEvents W elapsed next conn r)))] ∧
    (-(2 ^ 63) ≤ writtenBytes (requestEvents W elapsed next conn r) →
      writtenBytes (requestEvents W elapsed next conn r) < 2 ^ 63 →
      (logRecords (requestEvents W elapsed next conn r)).map recordSize =
        [some (writtenBytes (requestEvents W elapsed next conn r))]) ∧
    (allWritesFull (requestEvents W elapsed next conn r) = true →
      writtenBytes (requestEvents W elapsed next conn r) =
        chunkBytes (requestEvents W elapsed next conn r)) := by
  have hev := Logger_events W elapsed next conn r
  unfold requestOutcome at hret
  rw [hret] at hev
  have hsize : (logRecords (requestEvents W elapsed next conn r)).map recordSize =
      [some (wrapInt (writtenBytes (requestEvents W elapsed next conn r)))] := by
    unfold requestEvents
    rw [hev]
    simp [logRecords_append, logRecords_calls, logRecords, writtenBytes_append, writtenBytes,
      accessRecord, recordSize]
  refine ⟨hsize, ?_, ?_⟩
  · intro hlo hhi
    rw [hsize, wrapInt_of_fits _ hlo hhi]
  · intro hfull
    exact writtenBytes_eq_chunkBytes _ hfull

/-- Witness for C2: a five-byte write cut short after three bytes, then a failing
two-byte write. -/
theorem Logger_size_eq_written_witness :
    requestOutcome limited 1500 retryWrite 3 sampleRequest = Outcome.returned ∧
    writtenBytes (requestEvents limited 1500 retryWrite 3 sampleRequest) = 3 ∧
    (logRecords (requestEvents limited 1500 retryWrite 3 sampleRequest)).map recordSize =
      [some (writtenBytes (requestEvents limited 1500 retryWrite 3 sampleRequest))] :=
  ⟨by decide, by decide,
    (Logger_size_eq_written limited 1500 retryWrite 3 sampleRequest (by decide)).2.1
      (by decide) (by decide)⟩

/-- C3: when the downstream handler returns without a call of `WriteHeader` on the
wrapped writer, whatever it writes, the status code of the access-log record is 200. -/
theorem Logger_status_default {σ : Type} (W : http.ResponseWriter σ) (elapsed : Int)
    (next : Handler) (conn : σ) (r : Request)
    (hret : requestOutcome W elapsed next conn r = Outcome.returned)
    (hno : ∀ c ∈ handlerCalls W next (World.fresh conn) r, c.isWriteHeader = false) :
    (logRecords (requestEvents W elapsed next conn r)).map recordStatus = [some 200] := by
  have hev := Logger_events W elapsed next conn r
  unfold requestOutcome at hret
  rw [hret] at hev
  have hnone : ∀ e ∈ (handlerCalls W next (World.fresh conn) r).map Call.event,
      e.isWriteHeader = false := by
    intro e he
    obtain ⟨c, hc, rfl⟩ := List.mem_map.mp he
    have hc1 := hno c hc
    cases c <;> simp_all [Call.isWriteHeader, Call.event, Event.isWriteHeader]
  unfold requestEvents
  rw [hev]
  simp [logRecords_append, logRecords_calls, logRecords, accessRecord, recordStatus,
    lastWriteHeader, lastWriteHeaderFrom_of_none _ _ hnone, StatusOK]

/-- Witness for C3: two writes, the first cut short, and no `WriteHeader`. -/
theorem Logger_status_default_witness :
    requestOutcome limited 1500 retryWrite 3 sampleRequest = Outcome.returned ∧
    (logRecords (requestEvents limited 1500 retryWrite 3 sampleRequest)).map recordStatus =
      [some 200] :=
  ⟨by decide, Logger_status_default limited 1500 retryWrite 3 sampleRequest (by decide)
    (by decide)⟩

/-- C4 fails when the downstream handler panics: `abortingHandler` sends a status and two
bytes and panics, `Logger` ends with that panic, and no access-log record is emitted. -/
theorem Logger_no_record_on_panic :
    requestOutcome discard 1500 abortingHandler () sampleRequest =
        Outcome.panicked "net/http: abort Handler" ∧
    (logRecords (requestEvents discard 1500 abortingHandler () sampleRequest)).length = 0 ∧
    (logRecords (requestEvents discard 1500 abortingHandler () sampleRequest)).length ≠ 1 := by
  decide

/-- C4, amended: for every request, `Logger(next)` emits exactly one access-log record
when `next.ServeHTTP` returns, and none when it panics. -/
theorem Logger_record_count {σ : Type} (W : http.ResponseWriter σ) (elapsed : Int)
    (next : Handler) (conn : σ) (r : Request) :
    (logRecords (requestEvents W elapsed next conn r)).length =
      (match requestOutcome W elapsed next conn r with
        | .returned => 1
        | .panicked _ => 0) := by
  have hev := Logger_events W elapsed next conn r
  unfold requestEvents requestOutcome
  rw [hev]
  cases (Logger W elapsed next (World.fresh conn) r).2 <;>
    simp [logRecords_append, logRecords_calls, logRecords]

/-- C5: when the downstream handler returns, the one line that `Logger` prints is the
remote address, the method in square brackets, the request URI, the wrapper's final
status code and size in decimal and the elapsed duration, separated by single spaces. -/
theorem Logger_line_format {σ : Type} (W : http.ResponseWriter σ) (elapsed : Int)
    (durString : Int → String) (next : Handler) (conn : σ) (r : Request)
    (hret : requestOutcome W elapsed next conn r = Outcome.returned) :
    logLines durString (requestEvents W elapsed next conn r) =
      [some (accessLine durString r.RemoteAddr r.Method r.RequestURI
        (servedWrapper W next conn r).statusCode (servedWrapper W next conn r).size
        elapsed)] := by
  have hev := Script.run_wrapper_events W (next r) (newWrapped (World.fresh conn))
  have hout := Logger_outcome W elapsed next (World.fresh conn) r
  unfold requestOutcome at hret
  rw [hret] at hout
  unfold requestEvents servedWrapper Handler.ServeHTTP
  rcases hres : (next r).run (wrapper (observed W)) (newWrapped (World.fresh conn))
    with ⟨rw1, out⟩
  rw [hres] at hev hout
  simp only at hout
  subst hout
  rw [Logger_of_returned W elapsed next _ r rw1 hres]
  simp only [Printf]
  rw [hev, logLines_append, logLines_append, logLines_calls]
  simp [newWrapped, World.fresh, logLines, Sprintf_accessFormat]

/-- Witness for C5: the line of a request answered with 201 and a two-byte body. -/
theorem Logger_line_format_witness :
    requestOutcome discard 1500 createdHandler () sampleRequest = Outcome.returned ∧
    logLines (fun d => decimal d ++ "ns")
        (requestEvents discard 1500 createdHandler () sampleRequest) =
      [some (accessLine (fun d => decimal d ++ "ns") "192.0.2.7:51234" "GET" "/foo?x=1"
        (servedWrapper discard createdHandler () sampleRequest).statusCode
        (servedWrapper discard createdHandler () sampleRequest).size 1500)] :=
  ⟨by decide, Logger_line_format discard 1500 (fun d => decimal d ++ "ns") createdHandler ()
    sampleRequest (by decide)⟩

/-- C6: the events of one request are the calls of the downstream handler on the
response writer, in order, followed by the access-log emissions; no `WriteHeader` or
`Write` follows an emission, and a record is emitted only when `next.ServeHTTP` has
returned. -/
theorem Logger_emits_after_writes {σ : Type} (W : http.ResponseWriter σ) (elapsed : Int)
    (next : Handler) (conn : σ) (r : Request) :
    requestEvents W elapsed next conn r =
        (handlerCalls W next (World.fresh conn) r).map Call.event ++
          (logRecords (requestEvents W elapsed next conn r)).map (Event.printf accessFormat) ∧
    noWriteAfterLog (requestEvents W elapsed next conn r) = true ∧
    (logRecords (requestEvents W elapsed next conn r) = [] ∨
      requestOutcome W elapsed next conn r = Outcome.returned) := by
  have hev := Logger_events W elapsed next conn r
  unfold requestEvents requestOutcome
  cases hout : (Logger W elapsed next (World.fresh conn) r).2 with
  | returned =>
    rw [hout] at hev
    refine ⟨?_, ?_, Or.inr rfl⟩
    · conv_lhs => rw [hev]
      rw [hev]
      simp [logRecords_append, logRecords_calls, logRecords]
    · rw [hev]
      exact noWriteAfterLog_calls _ _ (by simp [noWriteAfterLog, Event.isPrintf])
  | panicked v =>
    rw [hout] at hev
    refine ⟨?_, ?_, Or.inl ?_⟩
    · conv_lhs => rw [hev]
      rw [hev]
      simp [logRecords_append, logRecords_calls, logRecords]
    · rw [hev]
      exact noWriteAfterLog_calls _ _ (by simp [noWriteAfterLog])
    · rw [hev]
      simp [logRecords_append, logRecords_calls, logRecords]

/-- C10: a handler run on the wrapper leaves the underlying writer in the state, with
the received calls, in which the same handler run on the underlying writer directly
leaves it; it makes the same calls, gets the same results and ends the same way; the
underlying writer receives exactly the calls made on the wrapper, in order; and one
`Write` or `WriteHeader` on the wrapper is one such call on the underlying writer,
`Write` returning the pair that the underlying `Write` returned. -/
theorem wrapper_transparent {σ : Type} (W : http.ResponseWriter σ) (sc : Script)
    (rw : responseWriter (World σ)) (b : Bytes) (code : Int) :
    (sc.run (wrapper (observed W)) rw).1.ResponseWriter =
        (sc.run (observed W) rw.ResponseWriter).1 ∧
    (sc.run (wrapper (observed W)) rw).2 = (sc.run (observed W) rw.ResponseWriter).2 ∧
    sc.calls (wrapper (observed W)) rw = sc.calls (observed W) rw.ResponseWriter ∧
    (sc.run (wrapper (observed W)) rw).1.ResponseWriter.events =
        rw.ResponseWriter.events ++ (sc.calls (wrapper (observed W)) rw).map Call.event ∧
    (responseWriter.Write (observed W) rw b).2 = ((observed W).Write rw.ResponseWriter b).2 ∧
    (responseWriter.Write (observed W) rw b).1.ResponseWriter =
        ((observed W).Write rw.ResponseWriter b).1 ∧
    (responseWriter.WriteHeader (observed W) rw code).ResponseWriter =
        (observed W).WriteHeader rw.ResponseWriter code :=
  ⟨(Script.run_wrapper (observed W) sc rw).1, (Script.run_wrapper (observed W) sc rw).2,
    Script.calls_wrapper (observed W) sc rw, Script.run_wrapper_events W sc rw,
    rfl, rfl, rfl⟩

/-! ## The order in which the listeners are started -/

theorem bindableOf_eq (bindable : Listener → Bool) :
    bindable =
      bindableOf (bindable .http4) (bindable .http6) (bindable .https4) (bindable .https6) := by
  funext l
  cases l <;> rfl

/-- A step of the main goroutine before it passes the serve call of the IPv4 TLS
listener, that listener serving. -/
theorem mainStates_step (b4 b6 s6 : Bool) :
    ∀ g ∈ mainStates,
      (g.step (bindableOf b4 b6 true s6) true).next ∈ mainStates ∧
      (g.step (bindableOf b4 b6 true s6) true).started ≠ some Listener.https6 ∧
      (g.step (bindableOf b4 b6 true s6) true).exit = false ∧
      (∀ f ∈ (g.step (bindableOf b4 b6 true s6) true).spawned,
        Goroutine.running [Instr.call f] ∈ challengeStates) := by
  revert b4 b6 s6
  decide

/-- A step of a goroutine that runs a challenge listener. -/
theorem challengeStates_step (b4 b6 s4 s6 : Bool) :
    ∀ g ∈ challengeStates,
      (g.step (bindableOf b4 b6 s4 s6) false).next ∈ challengeStates ∧
      (g.step (bindableOf b4 b6 s4 s6) false).started ≠ some Listener.https6 ∧
      (g.step (bindableOf b4 b6 s4 s6) false).exit = false ∧
      (g.step (bindableOf b4 b6 s4 s6) false).spawned = none := by
  revert b4 b6 s4 s6
  decide

/-- While the IPv4 TLS listener can be bound, no step of the process leads out of
`BeforeHttps6`. -/
theorem BeforeHttps6_step (bindable : Listener → Bool) (hb : bindable .https4 = true)
    (p : Process) (who : Option Nat) (hp : BeforeHttps6 p) :
    BeforeHttps6 (p.step bindable who) := by
  obtain ⟨hmain, hothers, hstarted⟩ := hp
  have henv := bindableOf_eq bindable
  rw [hb] at henv
  unfold Process.step
  split
  · exact ⟨hmain, hothers, hstarted⟩
  · cases who with
    | none =>
      have hstep := mainStates_step (bindable .http4) (bindable .http6) (bindable .https6)
        p.main hmain
      rw [← henv] at hstep
      obtain ⟨hnext, hnot, _, hspawn⟩ := hstep
      refine ⟨hnext, ?_, ?_⟩
      · intro g hg
        simp only [Process.record, List.mem_append] at hg
        rcases hg with hg | hg
        · exact hothers g hg
        · cases hsp : (p.main.step bindable true).spawned with
          | none => simp [hsp] at hg
          | some f =>
            simp only [hsp, Option.map_some', Option.toList, List.mem_singleton] at hg
            rw [hg]
            exact hspawn f (by simp [hsp])
      · simp only [Process.record, List.mem_append, not_or]
        refine ⟨hstarted, ?_⟩
        cases hst : (p.main.step bindable true).started with
        | none => simp [Option.toList]
        | some l =>
          simp only [Option.toList, List.mem_singleton]
          intro hl
          exact hnot (by rw [hst, hl])
    | some i =>
      simp only []
      cases hget : p.others.get? i with
      | none => exact ⟨hmain, hothers, hstarted⟩
      | some g =>
        have hg : g ∈ p.others := List.get?_mem hget
        have hstep := challengeStates_step (bindable .http4) (bindable .http6) true
          (bindable .https6) g (hothers g hg)
        rw [← henv] at hstep
        obtain ⟨hnext, hnot, _, hspawn⟩ := hstep
        refine ⟨hmain, ?_, ?_⟩
        · intro x hx
          simp only [Process.record, hspawn, Option.map_none', Option.toList,
            List.append_nil] at hx
          rcases List.mem_or_eq_of_mem_set hx with hx | hx
          · exact hothers x hx
          · rw [hx]; exact hnext
        · simp only [Process.record, List.mem_append, not_or]
          refine ⟨hstarted, ?_⟩
          cases hst : (g.step bindable false).started with
          | none => simp [Option.toList]
          | some l =>
            simp only [Option.toList, List.mem_singleton]
            intro hl
            exact hnot (by rw [hst, hl])

/-- While the IPv4 TLS listener can be bound, every schedule stays in `BeforeHttps6`. -/
theorem BeforeHttps6_run (bindable : Listener → Bool) (hb : bindable .https4 = true)
    (sched : List (Option Nat)) :
    ∀ p : Process, BeforeHttps6 p → BeforeHttps6 (Process.run bindable sched p) := by
  induction sched with
  | nil => intro p hp; exact hp
  | cons who rest ih =>
    intro p hp
    exact ih _ (BeforeHttps6_step bindable hb p who hp)

theorem BeforeHttps6_startup : BeforeHttps6 startup := by
  refine ⟨by decide, ?_, ?_⟩
  · intro g hg
    simp [startup] at hg
  · simp [startup]

/-- C9, evaluated on the code: under every schedule the serve call of the IPv6 TLS
listener is made only if the address of the IPv4 TLS listener cannot be bound, that is,
only after `server.ListenAndServeTLS` has returned. With all four addresses bindable it
is never made: under every schedule the IPv6 TLS listener is not started, and once every
goroutine has run as far as it can the main goroutine is blocked inside the serve call
of the IPv4 TLS listener with only three listeners serving. -/
theorem main_https6_waits_for_https4 (bindable : Listener → Bool)
    (sched : List (Option Nat)) :
    ((Process.run bindable sched startup).started.contains Listener.https6 = false ∨
      bindable .https4 = false) ∧
    (Process.run allBindable sched startup).started.contains Listener.https6 = false ∧
    Process.run allBindable eagerSchedule startup =
      { main := .serving .https4, others := [.serving .http4, .serving .http6],
        started := [.https4, .http4, .http6], exited := false } := by
  refine ⟨?_, ?_, by decide⟩
  · cases hb : bindable .https4 with
    | false => exact Or.inr rfl
    | true =>
      left
      have h := (BeforeHttps6_run bindable hb sched startup BeforeHttps6_startup).2.2
      simpa using h
  · have h := (BeforeHttps6_run allBindable rfl sched startup BeforeHttps6_startup).2.2
    simpa using h

end Rap
